import Mathlib

/-!
Shallow embedding of `ComparisonRangeLabel.tsx` (Superset frontend).

The component's single effect hook derives a list of label strings from
the active temporal-range filters, the comparison shift tags, and an
optional explicit start date.  External services (`fetchTimeRange`,
`getTimeOffset`, the date-pattern matcher, date parsing/formatting) are
modelled as oracle functions collected in an `Env` structure; dayjs
values are modelled as integers (timestamps) with `isSameOrBefore` as
integer `≤`.  Each per-filter promise chain is modelled as the list of
fetch calls it performs paired with its outcome, a rejection being
`Except.error`.
-/

/-- A `BinaryAdhocFilter` as the component uses it: only `operator`,
`subject` and `comparator` are read (the object spread in the
`getTimeOffset` call preserves the other fields it carries). -/
structure BinaryAdhocFilter where
  operator : String
  subject : String
  comparator : String
deriving DecidableEq, Repr

/-- One call to `fetchTimeRange(range, subject, shifts?)`; `shifts = none`
models the two-argument call (third JS argument `undefined`). -/
structure FetchCall where
  range : String
  subject : String
  shifts : Option (List String)
deriving DecidableEq, Repr

/-- The options object passed to `getTimeOffset`. -/
structure TimeOffsetArgs where
  timeRangeFilter : BinaryAdhocFilter
  shifts : List String
  startDate : Option String
  includeFutureOffsets : Bool
deriving DecidableEq, Repr

/-- The external services the component consumes, as deterministic
oracles.  `fetchTimeRange` resolves to `{ value }` with an optional
string (`Except.error` models a rejected promise); `datePatternMatch`
models `String.match(DEFAULT_DATE_PATTERN)` (`none` = no match);
`parseDttm` models `extendedDayjs(parseDttmToDate(s))` as a timestamp
(`none` models a JS `undefined` argument); `formatDate` models
`.format('YYYY-MM-DD')`. -/
structure Env where
  fetchTimeRange : FetchCall → Except Unit (Option String)
  getTimeOffset : TimeOffsetArgs → List String
  datePatternMatch : String → Option (List String)
  parseDttm : Option String → Int
  formatDate : Int → String

/-- JS truthiness of a `string | undefined` value: `undefined` and the
empty string are falsy. -/
def jsTruthy : Option String → Bool
  | none => false
  | some s => s != ""

/-- `ensureIsArray` applied to a `string[] | undefined` value. -/
def ensureIsArray : Option (List String) → List String
  | none => []
  | some l => l

/-- lodash `isEmpty` on a `string[] | undefined` value. -/
def optListIsEmpty : Option (List String) → Bool
  | none => true
  | some l => l.isEmpty

/-- JS template interpolation of a `string | undefined` value:
`undefined` prints as `"undefined"`. -/
def optToJsString : Option String → String
  | none => "undefined"
  | some s => s

/-- Whether a modelled promise resolved (used for `Promise.all`). -/
def isResolved : Except Unit (Option String) → Bool
  | .ok _ => true
  | .error _ => false

/-- `r.value ?? ''`: the label extracted from one resolved result. -/
def valueOrEmpty : Except Unit (Option String) → String
  | .ok v => v.getD ""
  | .error _ => ""

/-- The `oldChoices` lookup table mapping legacy single-character
time-comparison codes to modern shift tags. -/
def oldChoices : List (String × String) :=
  [("r", "inherit"), ("y", "1 year ago"), ("m", "1 month ago"),
   ("w", "1 week ago"), ("c", "custom")]

/-- `oldChoices.hasOwnProperty(k)` followed by the keyed read. -/
def oldChoicesLookup (k : String) : Option String :=
  (oldChoices.find? (fun p => p.1 == k)).map Prod.snd

/-- The `shifts` selector: when `form_data.time_compare` is absent,
a legacy `time_comparison` code found in `oldChoices` is returned as a
one-element list; otherwise `time_compare` is returned unchanged. -/
def shiftsSelector (time_compare : Option (List String))
    (time_comparison : Option String) : Option (List String) :=
  if time_compare.isNone then
    match oldChoicesLookup (time_comparison.getD "") with
    | some previousChoice => some [previousChoice]
    | none => time_compare
  else time_compare

/-- The `currentTimeRangeFilters` / `previousCustomFilter` selectors:
keep only filters whose operator is `TEMPORAL_RANGE`. -/
def temporalRangeFilters (adhoc_filters : List BinaryAdhocFilter) :
    List BinaryAdhocFilter :=
  adhoc_filters.filter (fun f => f.operator == "TEMPORAL_RANGE")

/-- The `useStartDate` computation at the top of the effect: the
explicit start date, or — when that is falsy and a previous custom
filter exists — the first ` : `-separated piece of that filter's
comparator, parsed and re-formatted as `YYYY-MM-DD`. -/
def useStartDateOf (env : Env) (previousCustomFilter : List BinaryAdhocFilter)
    (startDate : Option String) : Option String :=
  if !jsTruthy startDate && !previousCustomFilter.isEmpty then
    match previousCustomFilter.head? with
    | some pf =>
        some (env.formatDate (env.parseDttm
          (some ((pf.comparator.splitOn " : ").headD ""))))
    | none => startDate
  else startDate

/-- The promise built for one filter inside
`currentTimeRangeFilters.map`: the list of `fetchTimeRange` calls it
performs, paired with its outcome. -/
def resolveFilter (env : Env) (shiftsArray : List String)
    (startDate useStartDate : Option String) (filter : BinaryAdhocFilter) :
    List FetchCall × Except Unit (Option String) :=
  let nonCustomNorInheritShifts :=
    shiftsArray.filter (fun shift => shift != "custom" && shift != "inherit")
  let customOrInheritShifts :=
    shiftsArray.filter (fun shift => shift == "custom" || shift == "inherit")
  if customOrInheritShifts.isEmpty then
    let c : FetchCall :=
      ⟨filter.comparator, filter.subject, some nonCustomNorInheritShifts⟩
    ([c], env.fetchTimeRange c)
  else if (customOrInheritShifts.contains "custom" && jsTruthy startDate)
      || customOrInheritShifts.contains "inherit" then
    let c1 : FetchCall := ⟨filter.comparator, filter.subject, none⟩
    match env.fetchTimeRange c1 with
    | .error e => ([c1], .error e)
    | .ok value =>
      let dates := value.bind env.datePatternMatch
      let datesArr := dates.getD []
      let parsedStartDate := datesArr.head?
      let parsedEndDate := datesArr[1]?
      if jsTruthy parsedStartDate then
        if decide (env.parseDttm startDate
              ≤ env.parseDttm (some (parsedStartDate.getD "")))
            || !jsTruthy startDate then
          let postProcessedShifts := env.getTimeOffset
            { timeRangeFilter :=
                { filter with comparator :=
                    parsedStartDate.getD "" ++ " : "
                      ++ optToJsString parsedEndDate },
              shifts := customOrInheritShifts,
              startDate := useStartDate,
              includeFutureOffsets := false }
          let c2 : FetchCall :=
            ⟨filter.comparator, filter.subject,
             some (postProcessedShifts ++ nonCustomNorInheritShifts)⟩
          ([c1, c2], env.fetchTimeRange c2)
        else ([c1], .ok (some ""))
      else ([c1], .ok (some ""))
  else ([], .ok (some ""))

/-- The outcome of one run of the effect: the label state after the run
(unchanged when nothing updates it) and every fetch call issued. -/
structure RunResult where
  labels : List String
  calls : List FetchCall
deriving DecidableEq, Repr

/-- The `Promise.all` batch: if every per-filter promise resolves, the
labels are replaced by the extracted values in filter order; a single
rejection leaves the labels unchanged.  All first-level calls are
issued either way. -/
def batchResult (env : Env) (currentTimeRangeFilters : List BinaryAdhocFilter)
    (previousCustomFilter : List BinaryAdhocFilter)
    (shifts : Option (List String)) (startDate : Option String)
    (oldLabels : List String) : RunResult :=
  let results := currentTimeRangeFilters.map
    (resolveFilter env (ensureIsArray shifts) startDate
      (useStartDateOf env previousCustomFilter startDate))
  if results.all (fun r => isResolved r.2) then
    ⟨results.map (fun r => valueOrEmpty r.2), (results.map Prod.fst).flatten⟩
  else
    ⟨oldLabels, (results.map Prod.fst).flatten⟩

/-- One run of the effect body: the two guards, then the batch. -/
def runEffect (env : Env) (currentTimeRangeFilters : List BinaryAdhocFilter)
    (previousCustomFilter : List BinaryAdhocFilter)
    (shifts : Option (List String)) (startDate : Option String)
    (oldLabels : List String) : RunResult :=
  if currentTimeRangeFilters.isEmpty
      || ((ensureIsArray shifts).isEmpty && !jsTruthy startDate) then
    ⟨[], []⟩
  else if !optListIsEmpty shifts || jsTruthy startDate then
    batchResult env currentTimeRangeFilters previousCustomFilter shifts
      startDate oldLabels
  else
    ⟨oldLabels, []⟩

/-! ## Helper lemmas -/

theorem filter_relative_nil (sl : List String)
    (hlit : ∀ s ∈ sl, s ≠ "custom" ∧ s ≠ "inherit") :
    sl.filter (fun shift => shift == "custom" || shift == "inherit") = [] := by
  rw [List.filter_eq_nil_iff]
  intro a ha
  simpa using hlit a ha

theorem filter_literal_self (sl : List String)
    (hlit : ∀ s ∈ sl, s ≠ "custom" ∧ s ≠ "inherit") :
    sl.filter (fun shift => shift != "custom" && shift != "inherit") = sl := by
  rw [List.filter_eq_self]
  intro a ha
  simpa using hlit a ha

theorem flatten_map_singleton {α β : Type} (l : List α) (g : α → β) :
    (l.map (fun a => [g a])).flatten = l.map g := by
  induction l with
  | nil => rfl
  | cons a t ih => simp [ih]

/-- When no shift tag is `custom` or `inherit`, the per-filter promise
is a single direct fetch with the literally filtered shifts. -/
theorem resolveFilter_no_relative (env : Env) (sl : List String)
    (sd usd : Option String) (f : BinaryAdhocFilter)
    (h : sl.filter (fun shift => shift == "custom" || shift == "inherit") = []) :
    resolveFilter env sl sd usd f =
      ([⟨f.comparator, f.subject,
          some (sl.filter (fun shift => shift != "custom" && shift != "inherit"))⟩],
        env.fetchTimeRange ⟨f.comparator, f.subject,
          some (sl.filter (fun shift => shift != "custom" && shift != "inherit"))⟩) := by
  simp [resolveFilter, h]

/-! ## Concrete environments used for witnesses and counterexamples -/

/-- A concrete environment: the unshifted fetch of any range resolves to
`"2024-01-01 : 2024-02-01"`, any shifted fetch resolves to
`"resolved"`. -/
def cEnvA : Env where
  fetchTimeRange := fun c =>
    match c.shifts with
    | none => .ok (some "2024-01-01 : 2024-02-01")
    | some _ => .ok (some "resolved")
  getTimeOffset := fun _ => ["52 days ago"]
  datePatternMatch := fun s =>
    if s = "2024-01-01 : 2024-02-01" then some ["2024-01-01", "2024-02-01"]
    else none
  parseDttm := fun o =>
    match o with
    | some "2024-01-01" => 100
    | some "2024-06-01" => 200
    | some "2023-12-01" => 50
    | _ => 0
  formatDate := fun _ => "2023-12-01"

/-- A concrete environment whose fetch service always rejects. -/
def cEnvErr : Env where
  fetchTimeRange := fun _ => .error ()
  getTimeOffset := fun _ => []
  datePatternMatch := fun _ => none
  parseDttm := fun _ => 0
  formatDate := fun _ => ""

/-- A concrete temporal-range filter. -/
def cFilterA : BinaryAdhocFilter :=
  ⟨"TEMPORAL_RANGE", "ds", "2024-01-01 : 2024-02-01"⟩

/-! ## Claim C1 -/

/-- Claim C1, counterexample to the claim as stated: with one active
temporal filter, a shift-tag list that (vacuously) contains only literal
values because it is empty, and no explicit start date, the effect makes
no fetch call at all and emits the empty label list, instead of one
direct call per filter whose returned value becomes the label. -/
theorem C1_counterexample :
    (runEffect cEnvA [cFilterA] [] (some []) none []).calls = [] ∧
    (runEffect cEnvA [cFilterA] [] (some []) none []).labels = [] := by
  exact ⟨rfl, rfl⟩

/-- Claim C1 (amended: the shift-tag list is additionally non-empty, or
an explicit start date is set): for a non-empty filter list and shift
tags containing only literal values, exactly one direct fetch per filter
is made, with that filter's comparator and subject and exactly the
literal shift tags, and each filter's label is the string value the
service returns for it. -/
theorem C1_literal_shifts_direct (env : Env)
    (fs prev : List BinaryAdhocFilter) (sl : List String)
    (sd : Option String) (old : List String) (val : BinaryAdhocFilter → String)
    (hfs : fs ≠ [])
    (hlit : ∀ s ∈ sl, s ≠ "custom" ∧ s ≠ "inherit")
    (hne : sl ≠ [] ∨ jsTruthy sd = true)
    (hfetch : ∀ f ∈ fs,
      env.fetchTimeRange ⟨f.comparator, f.subject, some sl⟩ =
        .ok (some (val f))) :
    (runEffect env fs prev (some sl) sd old).calls =
      fs.map (fun f => ⟨f.comparator, f.subject, some sl⟩) ∧
    (runEffect env fs prev (some sl) sd old).labels = fs.map val := by
  have hco := filter_relative_nil sl hlit
  have hnc := filter_literal_self sl hlit
  have hres : ∀ f ∈ fs,
      resolveFilter env (ensureIsArray (some sl)) sd
          (useStartDateOf env prev sd) f =
        ((fun f : BinaryAdhocFilter =>
          ([(⟨f.comparator, f.subject, some sl⟩ : FetchCall)],
            (Except.ok (some (val f)) : Except Unit (Option String)))) f) := by
    intro f hf
    show resolveFilter env sl sd (useStartDateOf env prev sd) f = _
    rw [resolveFilter_no_relative env sl sd (useStartDateOf env prev sd) f hco,
      hnc, hfetch f hf]
  have h1 : (fs.isEmpty
      || ((ensureIsArray (some sl)).isEmpty && !jsTruthy sd)) = false := by
    cases fs with
    | nil => exact absurd rfl hfs
    | cons a t =>
      rcases hne with h | h
      · cases sl with
        | nil => exact absurd rfl h
        | cons b u => simp [ensureIsArray]
      · simp [ensureIsArray, h]
  have h2 : (!optListIsEmpty (some sl) || jsTruthy sd) = true := by
    rcases hne with h | h
    · cases sl with
      | nil => exact absurd rfl h
      | cons b u => simp [optListIsEmpty]
    · simp [h]
  rw [runEffect, h1]
  simp only [Bool.false_eq_true, if_false, h2, if_true]
  rw [batchResult, List.map_congr_left hres]
  have hall : (fs.map (fun f : BinaryAdhocFilter =>
      ([(⟨f.comparator, f.subject, some sl⟩ : FetchCall)],
        (Except.ok (some (val f)) : Except Unit (Option String))))).all
      (fun r => isResolved r.2) = true := by
    rw [List.all_eq_true]
    intro r hr
    rcases List.mem_map.mp hr with ⟨f, _, rfl⟩
    rfl
  simp only [hall, if_true]
  constructor
  · rw [List.map_map]
    exact flatten_map_singleton fs
      (fun f : BinaryAdhocFilter =>
        (⟨f.comparator, f.subject, some sl⟩ : FetchCall))
  · rw [List.map_map]
    rfl

/-- Witness for the amended claim C1 at a concrete input. -/
theorem C1_witness :
    (runEffect cEnvA [cFilterA] [] (some ["1 week ago"]) none
        ["stale"]).calls =
      [cFilterA].map (fun f => ⟨f.comparator, f.subject, some ["1 week ago"]⟩) ∧
    (runEffect cEnvA [cFilterA] [] (some ["1 week ago"]) none
        ["stale"]).labels =
      [cFilterA].map (fun _ => "resolved") :=
  C1_literal_shifts_direct cEnvA [cFilterA] [] ["1 week ago"] none ["stale"]
    (fun _ => "resolved") (by decide) (by decide) (Or.inl (by decide))
    (by intro f hf; rw [List.mem_singleton] at hf; subst hf; rfl)

/-! ## Claim C5 -/

/-- Claim C5: with no active temporal filter, or an empty shift-tag list
and no explicit start date, the effect emits the empty label list and
makes no fetch call. -/
theorem C5_empty_inputs (env : Env) (fs prev : List BinaryAdhocFilter)
    (shifts : Option (List String)) (sd : Option String) (old : List String)
    (h : fs = [] ∨ ((ensureIsArray shifts).isEmpty = true ∧ jsTruthy sd = false)) :
    runEffect env fs prev shifts sd old = ⟨[], []⟩ := by
  unfold runEffect
  rcases h with h | ⟨h1, h2⟩
  · subst h; simp
  · simp [h1, h2]

/-- Witness for claim C5 at a concrete input. -/
theorem C5_witness :
    runEffect cEnvA [] [] (some ["1 week ago"]) none ["x"] = ⟨[], []⟩ :=
  C5_empty_inputs cEnvA [] [] (some ["1 week ago"]) none ["x"] (Or.inl rfl)

/-! ## Claim C6 -/

/-- Claim C6: with no modern `time_compare` value, the legacy codes
`r`, `y`, `m`, `w`, `c` map to `inherit`, `1 year ago`, `1 month ago`,
`1 week ago`, `custom` respectively as one-element shift lists; when the
modern field is present, it is returned unchanged and the legacy code is
ignored. -/
theorem C6_legacy_mapping :
    shiftsSelector none (some "y") = some ["1 year ago"] ∧
    shiftsSelector none (some "r") = some ["inherit"] ∧
    shiftsSelector none (some "m") = some ["1 month ago"] ∧
    shiftsSelector none (some "w") = some ["1 week ago"] ∧
    shiftsSelector none (some "c") = some ["custom"] ∧
    ∀ (l : List String) (tc : Option String), shiftsSelector (some l) tc = some l := by
  refine ⟨by decide, by decide, by decide, by decide, by decide, ?_⟩
  intro l tc
  rfl

/-! ## Helpers for the relative-shift branch -/

theorem relative_filter_mem_inherit (sl : List String) (h : "inherit" ∈ sl) :
    "inherit" ∈ sl.filter (fun shift => shift == "custom" || shift == "inherit") :=
  List.mem_filter.mpr ⟨h, by decide⟩

theorem relative_filter_mem_custom (sl : List String) (h : "custom" ∈ sl) :
    "custom" ∈ sl.filter (fun shift => shift == "custom" || shift == "inherit") :=
  List.mem_filter.mpr ⟨h, by decide⟩

theorem isEmpty_false_of_mem {a : String} {l : List String} (h : a ∈ l) :
    l.isEmpty = false := by
  cases l with
  | nil => cases h
  | cons b t => rfl

/-! ## Claim C2 -/

/-- Claim C2: when the shift tags contain `inherit`, the filter's own
range fetch succeeds with a value whose date-pattern match yields a
(non-empty) start date, and any explicit start date is on or before that
parsed start date, the per-filter promise makes the unshifted fetch,
computes offsets through `getTimeOffset` with
`includeFutureOffsets = false`, concatenates them with the literal shift
tags, makes a second fetch with that combined list, and its label is the
second fetch's returned value. -/
theorem C2_inherit_offsets (env : Env) (sl : List String)
    (sd usd : Option String) (f : BinaryAdhocFilter)
    (v : String) (ds : List String) (ps v2 : String)
    (hin : "inherit" ∈ sl)
    (h1 : env.fetchTimeRange ⟨f.comparator, f.subject, none⟩ = .ok (some v))
    (hds : env.datePatternMatch v = some ds)
    (hps : ds.head? = some ps)
    (hps2 : ps ≠ "")
    (hgate : jsTruthy sd = true → env.parseDttm sd ≤ env.parseDttm (some ps))
    (h2 : env.fetchTimeRange ⟨f.comparator, f.subject,
        some (env.getTimeOffset
            { timeRangeFilter :=
                { f with comparator := ps ++ " : " ++ optToJsString ds[1]? },
              shifts := sl.filter
                (fun shift => shift == "custom" || shift == "inherit"),
              startDate := usd,
              includeFutureOffsets := false }
          ++ sl.filter
            (fun shift => shift != "custom" && shift != "inherit"))⟩ =
      .ok (some v2)) :
    resolveFilter env sl sd usd f =
      ([⟨f.comparator, f.subject, none⟩,
        ⟨f.comparator, f.subject,
          some (env.getTimeOffset
              { timeRangeFilter :=
                  { f with comparator := ps ++ " : " ++ optToJsString ds[1]? },
                shifts := sl.filter
                  (fun shift => shift == "custom" || shift == "inherit"),
                startDate := usd,
                includeFutureOffsets := false }
            ++ sl.filter
              (fun shift => shift != "custom" && shift != "inherit"))⟩],
        .ok (some v2)) ∧
    valueOrEmpty (resolveFilter env sl sd usd f).2 = v2 := by
  have hm := relative_filter_mem_inherit sl hin
  have hisne := isEmpty_false_of_mem hm
  have hcont : (sl.filter
      (fun shift => shift == "custom" || shift == "inherit")).contains
      "inherit" = true :=
    List.elem_eq_true_of_mem hm
  have hgateb : (decide (env.parseDttm sd ≤ env.parseDttm (some ps))
      || !jsTruthy sd) = true := by
    cases hsd : jsTruthy sd with
    | true => simp [hgate hsd]
    | false => simp
  have hmain : resolveFilter env sl sd usd f =
      ([⟨f.comparator, f.subject, none⟩,
        ⟨f.comparator, f.subject,
          some (env.getTimeOffset
              { timeRangeFilter :=
                  { f with comparator := ps ++ " : " ++ optToJsString ds[1]? },
                shifts := sl.filter
                  (fun shift => shift == "custom" || shift == "inherit"),
                startDate := usd,
                includeFutureOffsets := false }
            ++ sl.filter
              (fun shift => shift != "custom" && shift != "inherit"))⟩],
        .ok (some v2)) := by
    rw [resolveFilter]
    simp only [hisne, Bool.false_eq_true, if_false, hcont, Bool.or_true,
      if_true, h1]
    have hpsb : jsTruthy (some ps) = true := by
      simp [jsTruthy, hps2]
    simp only [Option.bind_eq_bind, Option.some_bind, hds, Option.getD_some,
      hps, hpsb, hgateb, if_true, h2]
  exact ⟨hmain, by rw [hmain]; rfl⟩

/-- Witness for claim C2 at a concrete input. -/
theorem C2_witness :
    resolveFilter cEnvA ["inherit"] none none cFilterA =
      ([⟨"2024-01-01 : 2024-02-01", "ds", none⟩,
        ⟨"2024-01-01 : 2024-02-01", "ds", some ["52 days ago"]⟩],
        .ok (some "resolved")) ∧
    valueOrEmpty (resolveFilter cEnvA ["inherit"] none none cFilterA).2 =
      "resolved" :=
  C2_inherit_offsets cEnvA ["inherit"] none none cFilterA
    "2024-01-01 : 2024-02-01" ["2024-01-01", "2024-02-01"] "2024-01-01"
    "resolved" (by decide) rfl (by decide) rfl (by decide)
    (by intro h; simp [jsTruthy] at h) rfl

/-! ## Claim C3 -/

/-- Claim C3: with relative shift tags present (`custom` together with a
truthy explicit start date, or `inherit`), when the filter's own range
resolves and its parsed start date is strictly earlier than the explicit
start date, the per-filter promise stops after the unshifted fetch and
its label is the empty string. -/
theorem C3_later_start_empty_label (env : Env) (sl : List String)
    (sd usd : Option String) (f : BinaryAdhocFilter)
    (v : String) (ds : List String) (ps : String)
    (hrel : ("custom" ∈ sl ∧ jsTruthy sd = true) ∨ "inherit" ∈ sl)
    (h1 : env.fetchTimeRange ⟨f.comparator, f.subject, none⟩ = .ok (some v))
    (hds : env.datePatternMatch v = some ds)
    (hps : ds.head? = some ps)
    (hps2 : ps ≠ "")
    (hsd : jsTruthy sd = true)
    (hlater : env.parseDttm (some ps) < env.parseDttm sd) :
    resolveFilter env sl sd usd f =
      ([⟨f.comparator, f.subject, none⟩], .ok (some "")) ∧
    valueOrEmpty (resolveFilter env sl sd usd f).2 = "" := by
  have hrelmem : ("custom" ∈ sl.filter
        (fun shift => shift == "custom" || shift == "inherit")) ∨
      ("inherit" ∈ sl.filter
        (fun shift => shift == "custom" || shift == "inherit")) := by
    rcases hrel with ⟨h, _⟩ | h
    · exact Or.inl (relative_filter_mem_custom sl h)
    · exact Or.inr (relative_filter_mem_inherit sl h)
  have hisne : (sl.filter
      (fun shift => shift == "custom" || shift == "inherit")).isEmpty = false := by
    rcases hrelmem with h | h
    · exact isEmpty_false_of_mem h
    · exact isEmpty_false_of_mem h
  have hcond : (((sl.filter
        (fun shift => shift == "custom" || shift == "inherit")).contains "custom"
        && jsTruthy sd)
      || (sl.filter
        (fun shift => shift == "custom" || shift == "inherit")).contains
          "inherit") = true := by
    rcases hrelmem with h | h
    · have hc : (sl.filter
          (fun shift => shift == "custom" || shift == "inherit")).contains
          "custom" = true :=
        List.elem_eq_true_of_mem h
      rw [hc, hsd]
      rfl
    · have hc : (sl.filter
          (fun shift => shift == "custom" || shift == "inherit")).contains
          "inherit" = true :=
        List.elem_eq_true_of_mem h
      rw [hc, Bool.or_true]
  have hgateb : (decide (env.parseDttm sd ≤ env.parseDttm (some ps))
      || !jsTruthy sd) = false := by
    rw [hsd]
    simp [not_le.mpr hlater]
  have hpsb : jsTruthy (some ps) = true := by
    simp [jsTruthy, hps2]
  have hmain : resolveFilter env sl sd usd f =
      ([⟨f.comparator, f.subject, none⟩], .ok (some "")) := by
    rw [resolveFilter]
    simp only [hisne, Bool.false_eq_true, if_false, hcond, if_true, h1]
    simp only [Option.bind_eq_bind, Option.some_bind, hds, Option.getD_some,
      hps, hpsb, hgateb, if_true, Bool.false_eq_true, if_false]
  exact ⟨hmain, by rw [hmain]; rfl⟩

/-- Witness for claim C3 at a concrete input: the explicit start date
`2024-06-01` parses later than the resolved start `2024-01-01`. -/
theorem C3_witness :
    resolveFilter cEnvA ["inherit"] (some "2024-06-01") (some "2024-06-01")
        cFilterA =
      ([⟨cFilterA.comparator, cFilterA.subject, none⟩], .ok (some "")) ∧
    valueOrEmpty (resolveFilter cEnvA ["inherit"] (some "2024-06-01")
        (some "2024-06-01") cFilterA).2 = "" :=
  C3_later_start_empty_label cEnvA ["inherit"] (some "2024-06-01")
    (some "2024-06-01") cFilterA "2024-01-01 : 2024-02-01"
    ["2024-01-01", "2024-02-01"] "2024-01-01"
    (Or.inr (by decide)) rfl (by decide) rfl (by decide) (by decide) (by decide)

/-! ## Claim C4 -/

/-- Claim C4: when the shift tags include `custom` or `inherit` but
`inherit` is absent and no truthy explicit start date accompanies
`custom`, the per-filter promise makes no fetch call at all (in
particular no offset-based second fetch) and its label is the empty
string. -/
theorem C4_unmet_relative_conditions (env : Env) (sl : List String)
    (sd usd : Option String) (f : BinaryAdhocFilter)
    (hrel : "custom" ∈ sl ∨ "inherit" ∈ sl)
    (hnoinherit : "inherit" ∉ sl)
    (hsd : jsTruthy sd = false) :
    resolveFilter env sl sd usd f = ([], .ok (some "")) ∧
    valueOrEmpty (resolveFilter env sl sd usd f).2 = "" := by
  have hcustom : "custom" ∈ sl := by
    rcases hrel with h | h
    · exact h
    · exact absurd h hnoinherit
  have hisne : (sl.filter
      (fun shift => shift == "custom" || shift == "inherit")).isEmpty = false :=
    isEmpty_false_of_mem (relative_filter_mem_custom sl hcustom)
  have hnocont : (sl.filter
      (fun shift => shift == "custom" || shift == "inherit")).contains
      "inherit" = false := by
    cases hc : (sl.filter
        (fun shift => shift == "custom" || shift == "inherit")).contains
        "inherit" with
    | false => rfl
    | true =>
      have hmem : "inherit" ∈ sl.filter
          (fun shift => shift == "custom" || shift == "inherit") :=
        List.elem_iff.mp hc
      exact absurd (List.mem_filter.mp hmem).1 hnoinherit
  have hmain : resolveFilter env sl sd usd f = ([], .ok (some "")) := by
    rw [resolveFilter]
    simp only [hisne, Bool.false_eq_true, if_false, hnocont, hsd,
      Bool.and_false, Bool.or_false]
  exact ⟨hmain, by rw [hmain]; rfl⟩

/-- Witness for claim C4 at a concrete input. -/
theorem C4_witness :
    resolveFilter cEnvA ["custom", "1 week ago"] none none cFilterA =
      ([], .ok (some "")) ∧
    valueOrEmpty (resolveFilter cEnvA ["custom", "1 week ago"] none none
        cFilterA).2 = "" :=
  C4_unmet_relative_conditions cEnvA ["custom", "1 week ago"] none none
    cFilterA (Or.inl (by decide)) (by decide) (by decide)

/-! ## Batch-level helpers -/

/-- When the filter list is non-empty and either the shift array is
non-empty or the start date is truthy, both effect guards pass and the
batch runs. -/
theorem runEffect_batch (env : Env) (fs prev : List BinaryAdhocFilter)
    (shifts : Option (List String)) (sd : Option String) (old : List String)
    (hfs : fs ≠ [])
    (hcond : ensureIsArray shifts ≠ [] ∨ jsTruthy sd = true) :
    runEffect env fs prev shifts sd old =
      batchResult env fs prev shifts sd old := by
  have h1 : (fs.isEmpty
      || ((ensureIsArray shifts).isEmpty && !jsTruthy sd)) = false := by
    cases fs with
    | nil => exact absurd rfl hfs
    | cons a t =>
      rcases hcond with h | h
      · cases hsa : ensureIsArray shifts with
        | nil => exact absurd hsa h
        | cons b u => simp
      · simp [h]
  have h2 : (!optListIsEmpty shifts || jsTruthy sd) = true := by
    rcases hcond with h | h
    · cases shifts with
      | none => exact absurd rfl h
      | some l =>
        cases l with
        | nil => exact absurd rfl h
        | cons b u => rfl
    · simp [h]
  rw [runEffect, h1]
  simp only [Bool.false_eq_true, if_false, h2, if_true]

/-! ## Claim C7 -/

/-- Claim C7: if any single per-filter resolution rejects, the whole
batch rejects and the stored label list is left exactly as it was. -/
theorem C7_rejection_keeps_labels (env : Env)
    (fs prev : List BinaryAdhocFilter) (shifts : Option (List String))
    (sd : Option String) (old : List String) (f : BinaryAdhocFilter)
    (hf : f ∈ fs)
    (hcond : ensureIsArray shifts ≠ [] ∨ jsTruthy sd = true)
    (herr : (resolveFilter env (ensureIsArray shifts) sd
        (useStartDateOf env prev sd) f).2 = .error ()) :
    (runEffect env fs prev shifts sd old).labels = old := by
  have hfs : fs ≠ [] := List.ne_nil_of_mem hf
  rw [runEffect_batch env fs prev shifts sd old hfs hcond, batchResult]
  have hall : ((fs.map (resolveFilter env (ensureIsArray shifts) sd
      (useStartDateOf env prev sd))).all (fun r => isResolved r.2)) = false := by
    apply Bool.eq_false_iff.mpr
    intro hc
    have hmem := List.mem_map_of_mem (resolveFilter env (ensureIsArray shifts)
      sd (useStartDateOf env prev sd)) hf
    have hr := List.all_eq_true.mp hc _ hmem
    rw [herr] at hr
    exact absurd hr (by decide)
  simp only [hall, Bool.false_eq_true, if_false]

/-- Witness for claim C7 at a concrete input: the fetch service always
rejects, the previous labels survive. -/
theorem C7_witness :
    (runEffect cEnvErr [cFilterA] [] (some ["1 week ago"]) none
      ["keep me"]).labels = ["keep me"] :=
  C7_rejection_keeps_labels cEnvErr [cFilterA] [] (some ["1 week ago"]) none
    ["keep me"] cFilterA (by decide) (Or.inl (by decide)) rfl

/-! ## Claim C8 -/

/-- Claim C8: when every per-filter resolution resolves, the stored
label list is replaced (independently of its previous content) by
exactly one label per active filter, in filter order, each being the
corresponding result's value or the empty string when that value is
missing. -/
theorem C8_full_replacement (env : Env) (fs prev : List BinaryAdhocFilter)
    (shifts : Option (List String)) (sd : Option String) (old : List String)
    (hfs : fs ≠ [])
    (hcond : ensureIsArray shifts ≠ [] ∨ jsTruthy sd = true)
    (hok : ∀ f ∈ fs, isResolved (resolveFilter env (ensureIsArray shifts) sd
        (useStartDateOf env prev sd) f).2 = true) :
    (runEffect env fs prev shifts sd old).labels =
      fs.map (fun f => valueOrEmpty (resolveFilter env (ensureIsArray shifts)
        sd (useStartDateOf env prev sd) f).2) := by
  rw [runEffect_batch env fs prev shifts sd old hfs hcond, batchResult]
  have hall : ((fs.map (resolveFilter env (ensureIsArray shifts) sd
      (useStartDateOf env prev sd))).all (fun r => isResolved r.2)) = true := by
    rw [List.all_eq_true]
    intro r hr
    rcases List.mem_map.mp hr with ⟨f, hf, rfl⟩
    exact hok f hf
  simp only [hall, if_true]
  rw [List.map_map]
  rfl

/-- Witness for claim C8 at a concrete input. -/
theorem C8_witness :
    (runEffect cEnvA [cFilterA] [] (some ["1 week ago"]) none
        ["old label"]).labels =
      [cFilterA].map (fun f => valueOrEmpty
        (resolveFilter cEnvA (ensureIsArray (some ["1 week ago"])) none
          (useStartDateOf cEnvA [] none) f).2) :=
  C8_full_replacement cEnvA [cFilterA] [] (some ["1 week ago"]) none
    ["old label"] (by decide) (Or.inl (by decide))
    (by intro f hf; rw [List.mem_singleton] at hf; subst hf; rfl)

/-! ## Claim C10 -/

/-- Claim C10: with an empty shift-tag list but a truthy explicit start
date, each active filter still triggers one direct fetch of its own
range with an empty shift list, and the whole outcome (labels and
calls) is the same for any two truthy start dates. -/
theorem C10_empty_shifts_startdate_independent (env : Env)
    (fs prev : List BinaryAdhocFilter) (shifts : Option (List String))
    (sd1 sd2 : Option String) (old : List String)
    (hempty : ensureIsArray shifts = [])
    (h1 : jsTruthy sd1 = true) (h2 : jsTruthy sd2 = true)
    (hfs : fs ≠ []) :
    (runEffect env fs prev shifts sd1 old).calls =
      fs.map (fun f => ⟨f.comparator, f.subject, some []⟩) ∧
    runEffect env fs prev shifts sd1 old =
      runEffect env fs prev shifts sd2 old := by
  have hres : ∀ (sd : Option String),
      fs.map (resolveFilter env (ensureIsArray shifts) sd
          (useStartDateOf env prev sd)) =
        fs.map (fun f =>
          ([(⟨f.comparator, f.subject, some []⟩ : FetchCall)],
            env.fetchTimeRange ⟨f.comparator, f.subject, some []⟩)) := by
    intro sd
    rw [hempty]
    rfl
  constructor
  · rw [runEffect_batch env fs prev shifts sd1 old hfs (Or.inr h1),
      batchResult, hres sd1]
    cases hall : (fs.map (fun f =>
        ([(⟨f.comparator, f.subject, some []⟩ : FetchCall)],
          env.fetchTimeRange ⟨f.comparator, f.subject, some []⟩))).all
        (fun r => isResolved r.2) with
    | true =>
      simp only [hall, if_true]
      rw [List.map_map]
      exact flatten_map_singleton fs
        (fun f : BinaryAdhocFilter =>
          (⟨f.comparator, f.subject, some []⟩ : FetchCall))
    | false =>
      simp only [hall, Bool.false_eq_true, if_false]
      rw [List.map_map]
      exact flatten_map_singleton fs
        (fun f : BinaryAdhocFilter =>
          (⟨f.comparator, f.subject, some []⟩ : FetchCall))
  · rw [runEffect_batch env fs prev shifts sd1 old hfs (Or.inr h1),
      runEffect_batch env fs prev shifts sd2 old hfs (Or.inr h2),
      batchResult, batchResult, hres sd1, hres sd2]

/-- Witness for claim C10 at a concrete input. -/
theorem C10_witness :
    (runEffect cEnvA [cFilterA] [] none (some "2024-06-01") ["z"]).calls =
      [cFilterA].map (fun f => ⟨f.comparator, f.subject, some []⟩) ∧
    runEffect cEnvA [cFilterA] [] none (some "2024-06-01") ["z"] =
      runEffect cEnvA [cFilterA] [] none (some "2023-12-01") ["z"] :=
  C10_empty_shifts_startdate_independent cEnvA [cFilterA] [] none
    (some "2024-06-01") (some "2023-12-01") ["z"] rfl (by decide) (by decide)
    (by decide)

/-! ## Claim C9 -/

/-- Claim C9: when no explicit start date is set but a previous custom
temporal-range filter exists, the start date handed to `getTimeOffset`
is the text before the first ` : ` of that filter's comparator, parsed
and re-formatted; and the on-or-before gate is skipped — the second
fetch happens with no condition on how the parsed dates compare. -/
theorem C9_previous_custom_start_date (env : Env) (sl : List String)
    (sd : Option String) (pf : BinaryAdhocFilter)
    (rest : List BinaryAdhocFilter) (f : BinaryAdhocFilter)
    (v : String) (ds : List String) (ps : String)
    (hsd : jsTruthy sd = false)
    (hin : "inherit" ∈ sl)
    (h1 : env.fetchTimeRange ⟨f.comparator, f.subject, none⟩ = .ok (some v))
    (hds : env.datePatternMatch v = some ds)
    (hps : ds.head? = some ps)
    (hps2 : ps ≠ "") :
    useStartDateOf env (pf :: rest) sd =
      some (env.formatDate (env.parseDttm
        (some ((pf.comparator.splitOn " : ").headD "")))) ∧
    resolveFilter env sl sd (useStartDateOf env (pf :: rest) sd) f =
      ([⟨f.comparator, f.subject, none⟩,
        ⟨f.comparator, f.subject,
          some (env.getTimeOffset
              { timeRangeFilter :=
                  { f with comparator := ps ++ " : " ++ optToJsString ds[1]? },
                shifts := sl.filter
                  (fun shift => shift == "custom" || shift == "inherit"),
                startDate := some (env.formatDate (env.parseDttm
                  (some ((pf.comparator.splitOn " : ").headD "")))),
                includeFutureOffsets := false }
            ++ sl.filter
              (fun shift => shift != "custom" && shift != "inherit"))⟩],
        env.fetchTimeRange ⟨f.comparator, f.subject,
          some (env.getTimeOffset
              { timeRangeFilter :=
                  { f with comparator := ps ++ " : " ++ optToJsString ds[1]? },
                shifts := sl.filter
                  (fun shift => shift == "custom" || shift == "inherit"),
                startDate := some (env.formatDate (env.parseDttm
                  (some ((pf.comparator.splitOn " : ").headD "")))),
                includeFutureOffsets := false }
            ++ sl.filter
              (fun shift => shift != "custom" && shift != "inherit"))⟩) := by
  have husd : useStartDateOf env (pf :: rest) sd =
      some (env.formatDate (env.parseDttm
        (some ((pf.comparator.splitOn " : ").headD "")))) := by
    rw [useStartDateOf, hsd]
    rfl
  refine ⟨husd, ?_⟩
  rw [husd]
  have hm := relative_filter_mem_inherit sl hin
  have hisne := isEmpty_false_of_mem hm
  have hcont : (sl.filter
      (fun shift => shift == "custom" || shift == "inherit")).contains
      "inherit" = true :=
    List.elem_eq_true_of_mem hm
  have hgateb : (decide (env.parseDttm sd ≤ env.parseDttm (some ps))
      || !jsTruthy sd) = true := by
    rw [hsd]
    simp
  have hpsb : jsTruthy (some ps) = true := by
    simp [jsTruthy, hps2]
  rw [resolveFilter]
  simp only [hisne, Bool.false_eq_true, if_false, hcont, Bool.or_true,
    if_true, h1]
  simp only [Option.bind_eq_bind, Option.some_bind, hds, Option.getD_some,
    hps, hpsb, hgateb, if_true]

/-- A concrete previous-custom filter used by the C9 witness. -/
def cFilterB : BinaryAdhocFilter :=
  ⟨"TEMPORAL_RANGE", "ds", "2023-12-01 : 2023-12-31"⟩

/-- Witness for claim C9 at a concrete input: the previous custom
filter's comparator starts with `2023-12-01`, which becomes the offset
utility's start date. -/
theorem C9_witness :
    useStartDateOf cEnvA [cFilterB] none = some "2023-12-01" ∧
    resolveFilter cEnvA ["inherit"] none (useStartDateOf cEnvA [cFilterB] none)
        cFilterA =
      ([⟨"2024-01-01 : 2024-02-01", "ds", none⟩,
        ⟨"2024-01-01 : 2024-02-01", "ds",
          some (cEnvA.getTimeOffset
              { timeRangeFilter :=
                  ⟨"TEMPORAL_RANGE", "ds", "2024-01-01 : 2024-02-01"⟩,
                shifts := ["inherit"],
                startDate := some "2023-12-01",
                includeFutureOffsets := false })⟩],
        .ok (some "resolved")) :=
  C9_previous_custom_start_date cEnvA ["inherit"] none cFilterB [] cFilterA
    "2024-01-01 : 2024-02-01" ["2024-01-01", "2024-02-01"] "2024-01-01"
    rfl (by decide) rfl (by decide) rfl (by decide)
